import Mathlib

/-!
Verification of the vaccine-pipeline dashboard core (`src/app7.py`, with the
phase/status filter also present in `src/app.py`).

The Python code is shallowly embedded: JSON sub-objects become structures with
`Option` fields (a `none` models an absent key), Python dict `.get(k, d)`
becomes `Option.getD`, Python's truthiness-based `or` on strings/lists becomes
explicit helpers, Python `in` on strings becomes an executable substring test,
and the paginated HTTP loop becomes a recursion over an abstract remote
(`Nat → Option PageResponse`, `none` modelling a `requests.RequestException`
on that request).
-/

set_option autoImplicit false

namespace VaccinePipeline

/-! ### Python string/truthiness helpers -/

/-- Python `a or b` where `a` is an optional string: `None` and `""` are falsy. -/
def pyOrStr (a : Option String) (b : String) : String :=
  match a with
  | some s => if s = "" then b else s
  | none => b

/-- Python `if x:` for an optional string (a missing or empty string is falsy). -/
def pyTruthyStr (a : Option String) : Bool :=
  match a with
  | some s => s ≠ ""
  | none => false

/-- `chStarts needle hay`: `needle` is a prefix of `hay` (on char lists). -/
def chStarts : List Char → List Char → Bool
  | [], _ => true
  | _ :: _, [] => false
  | c :: cs, d :: ds => c = d && chStarts cs ds

/-- `chSub needle hay`: `needle` occurs contiguously inside `hay`. -/
def chSub (needle : List Char) : List Char → Bool
  | [] => needle.isEmpty
  | d :: ds => chStarts needle (d :: ds) || chSub needle ds

/-- Python `needle in hay` on strings: substring containment. -/
def pyInStr (needle hay : String) : Bool :=
  chSub needle.toList hay.toList

/-- Python `str.strip()`: drop whitespace from both ends. -/
def pyStrip (s : String) : String :=
  String.mk (((s.toList.dropWhile Char.isWhitespace).reverse.dropWhile
    Char.isWhitespace).reverse)

/-- Python `str.lower()` (the code's names are ASCII; `Char.toLower` lowers
exactly the ASCII range). -/
def pyLower (s : String) : String :=
  String.mk (s.toList.map Char.toLower)

/-- `str.split(sep)` on char lists (fuel-structured recursion so the kernel
can evaluate it; `fuel ≥ length + 1` always suffices, each step consumes at
least one character). -/
def splitCharsAux (sep : List Char) : Nat → List Char → List (List Char)
  | 0, _ => [[]]
  | _ + 1, [] => [[]]
  | fuel + 1, c :: cs =>
    if chStarts sep (c :: cs) then
      [] :: splitCharsAux sep fuel (cs.drop (sep.length - 1))
    else
      match splitCharsAux sep fuel cs with
      | [] => [[c]]
      | h :: t => (c :: h) :: t

/-- Python `s.split(sep)` for a non-empty separator. -/
def pySplit (sep s : String) : List String :=
  (splitCharsAux sep.toList (s.toList.length + 1) s.toList).map String.mk

/-- Python `set.add`: insert into a duplicate-free list, keeping first-insertion
order (one faithful refinement of CPython's unspecified set iteration order). -/
def insertDedup (l : List String) (s : String) : List String :=
  if l.contains s then l else l ++ [s]

/-- Python `sorted` on a list of strings (ascending insertion sort). -/
def insertSorted (s : String) : List String → List String
  | [] => [s]
  | h :: t =>
    match compare s h with
    | Ordering.gt => h :: insertSorted s t
    | _ => s :: h :: t

def pySorted (l : List String) : List String :=
  l.foldr insertSorted []

/-! ### Raw JSON data model (the fields `app7.py` reads) -/

structure InterventionItem where
  name : Option String
  deriving DecidableEq, Repr

structure ArmGroup where
  interventionNames : List String
  deriving DecidableEq, Repr

structure ArmsModule where
  interventions : List InterventionItem
  armGroups : List ArmGroup
  deriving DecidableEq, Repr

structure IdentModule where
  nctId : Option String
  briefTitle : Option String
  officialTitle : Option String
  deriving DecidableEq, Repr

structure DesignModule where
  phases : Option (List String)
  deriving DecidableEq, Repr

structure StatusModule where
  overallStatus : Option String
  deriving DecidableEq, Repr

structure LeadSponsor where
  name : Option String
  deriving DecidableEq, Repr

structure SponsorModule where
  leadSponsor : Option LeadSponsor
  deriving DecidableEq, Repr

structure ConditionsModule where
  conditions : List String
  deriving DecidableEq, Repr

structure OutcomeMeasure where
  title : Option String
  description : Option String
  deriving DecidableEq, Repr

structure OutcomeMeasuresModule where
  outcomeMeasures : List OutcomeMeasure
  deriving DecidableEq, Repr

structure ResultsSection where
  outcomeMeasuresModule : Option OutcomeMeasuresModule
  deriving DecidableEq, Repr

structure ProtocolSection where
  identificationModule : Option IdentModule
  designModule : Option DesignModule
  statusModule : Option StatusModule
  sponsorCollaboratorsModule : Option SponsorModule
  armsInterventionsModule : Option ArmsModule
  conditionsModule : Option ConditionsModule
  deriving DecidableEq, Repr

/-- One raw study object; `resultsSection = none` models an absent or empty
(hence falsy) results section. -/
structure RawStudy where
  protocolSection : Option ProtocolSection
  resultsSection : Option ResultsSection
  deriving DecidableEq, Repr

def emptyIdent : IdentModule := ⟨none, none, none⟩
def emptyDesign : DesignModule := ⟨none⟩
def emptyStatus : StatusModule := ⟨none⟩
def emptyLead : LeadSponsor := ⟨none⟩
def emptySponsor : SponsorModule := ⟨none⟩
def emptyArms : ArmsModule := ⟨[], []⟩
def emptyConditions : ConditionsModule := ⟨[]⟩
def emptyProto : ProtocolSection := ⟨none, none, none, none, none, none⟩

/-! ### Vaccine-name extraction (`app7.py` lines 48–55 and 105–112) -/

/-- The first extraction loop: flat intervention items; a falsy (`None` or
empty) name is skipped, otherwise the name is stripped and added to the set. -/
def vaccinesFromInterventions (items : List InterventionItem) : List String :=
  items.foldl (fun acc item =>
    match item.name with
    | some n => if n = "" then acc else insertDedup acc (pyStrip n)
    | none => acc) []

/-- The full extraction: interventions first, then every per-arm intervention
name, stripped and added unconditionally. -/
def vaccinesOf (arms : ArmsModule) : List String :=
  arms.armGroups.foldl
    (fun acc g => g.interventionNames.foldl (fun a n => insertDedup a (pyStrip n)) acc)
    (vaccinesFromInterventions arms.interventions)

/-! ### List normalizer (`fetch_all_vaccine_trials` loop body, lines 39–70) -/

structure TrialRow where
  nctId : Option String
  title : String
  phase : String
  status : String
  sponsor : String
  vaccines : String
  deriving DecidableEq, Repr

/-- Python `design.get("phases") or ["Not reported"]`: a missing or empty list
is replaced by the placeholder. -/
def phasesOrDefault (p : Option (List String)) : List String :=
  match p with
  | some l => if l.isEmpty then ["Not reported"] else l
  | none => ["Not reported"]

def normalizeSummary (s : RawStudy) : TrialRow :=
  let proto := s.protocolSection.getD emptyProto
  let ident := proto.identificationModule.getD emptyIdent
  let design := proto.designModule.getD emptyDesign
  let status := proto.statusModule.getD emptyStatus
  let sponsor := proto.sponsorCollaboratorsModule.getD emptySponsor
  let arms := proto.armsInterventionsModule.getD emptyArms
  let vaccines := vaccinesOf arms
  { nctId := ident.nctId
    title := pyOrStr ident.briefTitle (pyOrStr ident.officialTitle "No title")
    phase := String.intercalate ", " (phasesOrDefault design.phases)
    status := pyOrStr status.overallStatus "Unknown"
    sponsor := ((sponsor.leadSponsor.getD emptyLead).name).getD "Unknown"
    vaccines :=
      if vaccines.isEmpty then "Not reported"
      else String.intercalate ", " (pySorted vaccines) }

def normalizePage (studies : List RawStudy) : List TrialRow :=
  studies.map normalizeSummary

/-! ### Detail normalizer (`fetch_trial_details_with_vaccines`, lines 88–144) -/

structure OutcomeRow where
  title : Option String
  description : String
  deriving DecidableEq, Repr

structure TrialDetail where
  title : String
  phase : String
  status : String
  sponsor : String
  vaccines : List String
  diseases : List String
  outcomes : List OutcomeRow
  deriving DecidableEq, Repr

def normalizeDetail (data : RawStudy) : TrialDetail :=
  let proto := data.protocolSection.getD emptyProto
  let design := proto.designModule.getD emptyDesign
  let status := proto.statusModule.getD emptyStatus
  let sponsor := proto.sponsorCollaboratorsModule.getD emptySponsor
  let arms := proto.armsInterventionsModule.getD emptyArms
  let conditions := proto.conditionsModule.getD emptyConditions
  let vaccines := vaccinesOf arms
  let outcomes :=
    match data.resultsSection with
    | none => []
    | some rs =>
      ((rs.outcomeMeasuresModule.getD ⟨[]⟩).outcomeMeasures).map
        (fun o => OutcomeRow.mk o.title (o.description.getD ""))
  let ident := proto.identificationModule.getD emptyIdent
  { title := pyOrStr ident.briefTitle (pyOrStr ident.officialTitle "No title")
    phase := String.intercalate ", " (phasesOrDefault design.phases)
    status := status.overallStatus.getD "Unknown"
    sponsor := ((sponsor.leadSponsor.getD emptyLead).name).getD "Unknown"
    vaccines := if vaccines.isEmpty then ["Not reported"] else pySorted vaccines
    diseases := conditions.conditions
    outcomes := outcomes }

/-- `fetch_trial_details_with_vaccines` at the transport boundary: the argument
models the outcome of the single HTTP request (`none` = any
`requests.RequestException`, including a not-found raised by
`raise_for_status`); the `except` clause returns `None`. -/
def fetch_trial_details_with_vaccines (resp : Option RawStudy) : Option TrialDetail :=
  match resp with
  | none => none
  | some data => some (normalizeDetail data)

/-! ### Paginated fetcher (`fetch_all_vaccine_trials`, lines 13–85)

The remote registry is abstracted as `remote : Nat → Option PageResponse`,
giving the outcome of the `k`-th HTTP request of one run (`none` = a
`requests.RequestException` raised for that request; the continuation token's
only control role in the loop is its presence/truthiness). -/

structure PageResponse where
  studies : List RawStudy
  nextPageToken : Option String
  deriving DecidableEq, Repr

/-- Outcome of one run of the pagination loop: the accumulated rows, how many
HTTP requests were issued, how many `time.sleep(1.2)` delays were performed,
and whether a `requests.RequestException` unwound the loop. -/
structure FetchRun where
  recs : List TrialRow
  requests : Nat
  delays : Nat
  errored : Bool
  deriving DecidableEq, Repr

/-- The `while page_count < max_pages` loop, by fuel (`fuel` = remaining
allowed iterations = `max_pages - page_count`). Per iteration: issue request
`idx` (an exception sets `errored` and unwinds); stop on an empty `studies`
list; normalize and append the page; on a truthy `nextPageToken` sleep and
continue, otherwise stop. Note the sleep precedes the next `while` test, so
it is performed even when the test is about to fail. -/
def fetchPages (remote : Nat → Option PageResponse) : Nat → Nat → FetchRun
  | _, 0 => ⟨[], 0, 0, false⟩
  | idx, fuel + 1 =>
    match remote idx with
    | none => ⟨[], 1, 0, true⟩
    | some pg =>
      if pg.studies.isEmpty then ⟨[], 1, 0, false⟩
      else
        let recs := normalizePage pg.studies
        if pyTruthyStr pg.nextPageToken then
          let rest := fetchPages remote (idx + 1) fuel
          ⟨recs ++ rest.recs, 1 + rest.requests, 1 + rest.delays, rest.errored⟩
        else ⟨recs, 1, 0, false⟩

/-- `fetch_all_vaccine_trials`: run the loop; the `except` clause discards
everything accumulated and returns `[]` when any request raised. -/
def fetch_all_vaccine_trials (remote : Nat → Option PageResponse)
    (max_pages : Nat := 10) : List TrialRow :=
  let run := fetchPages remote 0 max_pages
  if run.errored then [] else run.recs

/-! ### Filter engine (`app7.py` lines 202–203, `app.py` lines 126–127) -/

/-- The phase-filter predicate as authored:
`any(ph in x for ph in selected_phases)` with `x` the record's comma-joined
phase string — Python `in` on strings, i.e. substring containment. -/
def phaseAdmits (selected_phases : List String) (r : TrialRow) : Bool :=
  selected_phases.any (fun ph => pyInStr ph r.phase)

/-- `df[df["Phase"].apply(lambda x: any(ph in x for ph in selected_phases))]`
followed by `df_filtered[df_filtered["Status"].isin(selected_status)]`. -/
def df_filtered (rows : List TrialRow)
    (selected_phases selected_status : List String) : List TrialRow :=
  (rows.filter (phaseAdmits selected_phases)).filter
    (fun r => selected_status.contains r.status)

/-- The spec's wording of the phase filter (for comparison with `phaseAdmits`):
some selected phase value is exactly equal to one of the tokens obtained by
splitting the record's comma-joined phase string. -/
def phaseAdmitsSpec (selected_phases : List String) (r : TrialRow) : Bool :=
  selected_phases.any (fun ph => (pySplit ", " r.phase).contains ph)

/-! ### Own-trials matching in the competitor flow (`app7.py` lines 284–310) -/

/-- The membership test of the `vaccine_results` loop: `vaccines` is built from
the flat `interventions` list only (no `armGroups` loop here), lowercased,
space-joined, and the lowercased seed name is tested as a substring. -/
def vaccineMatch (vaccine_name : String) (study : RawStudy) : Bool :=
  let proto := study.protocolSection.getD emptyProto
  let arms := proto.armsInterventionsModule.getD emptyArms
  let vaccines := vaccinesFromInterventions arms.interventions
  let vaccine_list := vaccines.map pyLower
  pyInStr (pyLower vaccine_name) (String.intercalate " " vaccine_list)

/-- The row appended by the `vaccine_results` loop for a matching study (same
fields as the list normalizer, but with the arm-group-free vaccine set). -/
def mkVaccineRow (study : RawStudy) : TrialRow :=
  let proto := study.protocolSection.getD emptyProto
  let ident := proto.identificationModule.getD emptyIdent
  let design := proto.designModule.getD emptyDesign
  let status := proto.statusModule.getD emptyStatus
  let sponsor := proto.sponsorCollaboratorsModule.getD emptySponsor
  let arms := proto.armsInterventionsModule.getD emptyArms
  let vaccines := vaccinesFromInterventions arms.interventions
  { nctId := ident.nctId
    title := pyOrStr ident.briefTitle (pyOrStr ident.officialTitle "No title")
    phase := String.intercalate ", " (phasesOrDefault design.phases)
    status := pyOrStr status.overallStatus "Unknown"
    sponsor := ((sponsor.leadSponsor.getD emptyLead).name).getD "Unknown"
    vaccines :=
      if vaccines.isEmpty then "Not reported"
      else String.intercalate ", " (pySorted vaccines) }

/-- The `vaccine_results` accumulation over the search hits: keep exactly the
studies passing `vaccineMatch`, in order. -/
def vaccine_results (vaccine_name : String) (studies : List RawStudy) : List TrialRow :=
  (studies.filter (fun s => vaccineMatch vaccine_name s)).map mkVaccineRow

/-- The spec's wording of the own-trials test (for comparison with
`vaccineMatch`): the full normalized product set — flat intervention names AND
per-arm intervention names, trimmed and deduplicated — case-folded and joined,
contains the case-folded seed as a substring. -/
def specOwnMatch (vaccine_name : String) (study : RawStudy) : Bool :=
  let proto := study.protocolSection.getD emptyProto
  let arms := proto.armsInterventionsModule.getD emptyArms
  let prods := (vaccinesOf arms).map pyLower
  pyInStr (pyLower vaccine_name) (String.intercalate " " prods)

/-! ### Accessors used to state the theorems -/

/-- The raw `overallStatus` value a study carries (through the
`protocolSection`/`statusModule` lookups the code performs). -/
def rawStatusOf (s : RawStudy) : Option String :=
  ((s.protocolSection.getD emptyProto).statusModule.getD emptyStatus).overallStatus

/-- The raw `sponsorCollaboratorsModule` sub-object of a study. -/
def sponsorModuleOf (s : RawStudy) : Option SponsorModule :=
  (s.protocolSection.getD emptyProto).sponsorCollaboratorsModule

/-- The raw `phases` value of a study's `designModule`. -/
def phasesRawOf (s : RawStudy) : Option (List String) :=
  ((s.protocolSection.getD emptyProto).designModule.getD emptyDesign).phases

/-- The raw `identificationModule` sub-object of a study. -/
def identOf (s : RawStudy) : Option IdentModule :=
  (s.protocolSection.getD emptyProto).identificationModule

/-- Replace a study's arm-group list, leaving every other field alone. -/
def setArmGroups (s : RawStudy) (gs : List ArmGroup) : RawStudy :=
  let proto := s.protocolSection.getD emptyProto
  let arms := proto.armsInterventionsModule.getD emptyArms
  ⟨some { proto with armsInterventionsModule := some { arms with armGroups := gs } },
   s.resultsSection⟩

/-- A response on which the pagination loop keeps going: the request succeeded,
the page is non-empty, and it carries a truthy continuation token. -/
def goodPage : Option PageResponse → Bool
  | some pg => !pg.studies.isEmpty && pyTruthyStr pg.nextPageToken
  | none => false

/-- A response that succeeded but carries zero records. -/
def emptyPage : Option PageResponse → Bool
  | some pg => pg.studies.isEmpty
  | none => false

/-- The records of a successful response (`[]` for a failed request). -/
def studiesOf : Option PageResponse → List RawStudy
  | some pg => pg.studies
  | none => []

/-- The rows contributed by requests `idx, idx+1, …, idx+k-1`. -/
def pagesRecs (remote : Nat → Option PageResponse) : Nat → Nat → List TrialRow
  | _, 0 => []
  | idx, k + 1 => normalizePage (studiesOf (remote idx)) ++ pagesRecs remote (idx + 1) k

/-! ### Concrete inputs used by witnesses and counterexamples -/

def c1Study : RawStudy :=
  ⟨some { emptyProto with
      identificationModule := some ⟨some "NCT00000001", some "Trial one", none⟩,
      designModule := some ⟨some ["PHASE1"]⟩,
      statusModule := some ⟨some "RECRUITING"⟩ }, none⟩

def c1Row : TrialRow := normalizeSummary c1Study

def c2Study : RawStudy :=
  ⟨some { emptyProto with
      identificationModule := some ⟨some "NCT00000002", some "Trial two", none⟩ }, none⟩

def c2CexRemote : Nat → Option PageResponse := fun _ => some ⟨[c2Study], some "tok"⟩

def c2ScenRemote : Nat → Option PageResponse := fun k =>
  if k < 2 then some ⟨List.replicate 100 c2Study, some "tok"⟩
  else some ⟨[], some "tok"⟩

def c3Study : RawStudy :=
  ⟨some { emptyProto with statusModule := some ⟨some "COMPLETED"⟩ }, none⟩

def c3GoodRemote : Nat → Option PageResponse := fun _ => some ⟨[c3Study], some "tok"⟩

def c3EmptyAt1Remote : Nat → Option PageResponse := fun k =>
  if k = 0 then some ⟨[c3Study], some "tok"⟩ else some ⟨[], some "tok"⟩

def c3NoTokAt1Remote : Nat → Option PageResponse := fun k =>
  if k = 0 then some ⟨[c3Study], some "tok"⟩ else some ⟨[c3Study], none⟩

def c4Remote : Nat → Option PageResponse := fun k =>
  if k = 0 then some ⟨[⟨none, none⟩], some "tok"⟩ else none

def c5Study : RawStudy :=
  ⟨some { emptyProto with armsInterventionsModule := some ⟨[], [⟨["Acme-Vax"]⟩]⟩ },
   none⟩

def c6Study : RawStudy :=
  ⟨some { emptyProto with statusModule := some ⟨some ""⟩ }, none⟩

def c6OkStudy : RawStudy :=
  ⟨some { emptyProto with statusModule := some ⟨some "RECRUITING"⟩ }, none⟩

def c7Raw : RawStudy :=
  ⟨some { emptyProto with conditionsModule := some ⟨["RSV"]⟩ }, none⟩

def c8Study : RawStudy := ⟨some emptyProto, none⟩

def c9Study : RawStudy := ⟨none, none⟩

def c10Item : InterventionItem := ⟨none⟩

/-! ### Lemmas about the pagination loop -/

/-- Splitting a run after a block of `k` "good" pages (non-empty, truthy
token): the loop processes all `k` pages, sleeping after each one, and then
behaves like a fresh run on the remaining fuel. -/
theorem fetchPages_shift (remote : Nat → Option PageResponse) (k : Nat) :
    ∀ (idx fuel : Nat), k ≤ fuel →
    (∀ i, i < k → goodPage (remote (idx + i)) = true) →
    fetchPages remote idx fuel =
      ⟨pagesRecs remote idx k ++ (fetchPages remote (idx + k) (fuel - k)).recs,
       k + (fetchPages remote (idx + k) (fuel - k)).requests,
       k + (fetchPages remote (idx + k) (fuel - k)).delays,
       (fetchPages remote (idx + k) (fuel - k)).errored⟩ := by
  induction k with
  | zero => intro idx fuel _ _; simp [pagesRecs]
  | succ k ih =>
    intro idx fuel hk hg
    obtain ⟨f, rfl⟩ : ∃ f, fuel = f + 1 := ⟨fuel - 1, by omega⟩
    have hg0 : goodPage (remote idx) = true := by
      have := hg 0 (by omega); simpa using this
    cases hri : remote idx with
    | none => rw [hri] at hg0; simp [goodPage] at hg0
    | some pg =>
      rw [hri] at hg0
      simp only [goodPage, Bool.and_eq_true, Bool.not_eq_true'] at hg0
      obtain ⟨hne, htok⟩ := hg0
      have ihs := ih (idx + 1) f (by omega)
        (fun i hi => by
          have h := hg (i + 1) (by omega)
          rwa [show idx + (i + 1) = idx + 1 + i by omega] at h)
      have harith1 : idx + (k + 1) = idx + 1 + k := by omega
      have harith2 : f + 1 - (k + 1) = f - k := by omega
      rw [show fetchPages remote idx (f + 1) =
            match remote idx with
            | none => ⟨[], 1, 0, true⟩
            | some pg =>
              if pg.studies.isEmpty then ⟨[], 1, 0, false⟩
              else
                let recs := normalizePage pg.studies
                if pyTruthyStr pg.nextPageToken then
                  let rest := fetchPages remote (idx + 1) f
                  ⟨recs ++ rest.recs, 1 + rest.requests, 1 + rest.delays,
                   rest.errored⟩
                else ⟨recs, 1, 0, false⟩
          from rfl]
      rw [hri]
      simp only [hne, htok, if_true, if_false, Bool.false_eq_true]
      rw [ihs, harith1, harith2]
      simp only [pagesRecs, studiesOf, hri, FetchRun.mk.injEq]
      refine ⟨by simp [List.append_assoc], by omega, by omega, trivial⟩

/-- A run over an endless supply of good pages consumes all its fuel: one
request and one delay per allowed page — including a delay after the last
page, because the sleep precedes the failing `while` test. -/
theorem fetchPages_all_good (remote : Nat → Option PageResponse) (m : Nat)
    (h : ∀ i, goodPage (remote i) = true) :
    fetchPages remote 0 m = ⟨pagesRecs remote 0 m, m, m, false⟩ := by
  have hs := fetchPages_shift remote m 0 m le_rfl (fun i _ => by simpa using h i)
  simpa [fetchPages, Nat.sub_self] using hs

/-- A run whose first `k` pages are good and whose page `k` comes back with
zero records stops right at page `k`: `k+1` requests, `k` delays, and only the
first `k` pages' rows accumulated. -/
theorem fetchPages_empty_stop (remote : Nat → Option PageResponse) (k m : Nat)
    (hkm : k < m) (hgood : ∀ i, i < k → goodPage (remote i) = true)
    (hempty : emptyPage (remote k) = true) :
    fetchPages remote 0 m = ⟨pagesRecs remote 0 k, k + 1, k, false⟩ := by
  have hs := fetchPages_shift remote k 0 m (Nat.le_of_lt hkm) (fun i hi => by simpa using hgood i hi)
  obtain ⟨t, ht⟩ : ∃ t, m - k = t + 1 := ⟨m - k - 1, by omega⟩
  cases hrk : remote k with
  | none => rw [hrk] at hempty; simp [emptyPage] at hempty
  | some pg =>
    rw [hrk] at hempty
    simp only [emptyPage] at hempty
    have htail : fetchPages remote (0 + k) (m - k) = ⟨[], 1, 0, false⟩ := by
      rw [show (0 : Nat) + k = k by omega, ht]
      rw [show fetchPages remote k (t + 1) =
            match remote k with
            | none => ⟨[], 1, 0, true⟩
            | some pg =>
              if pg.studies.isEmpty then ⟨[], 1, 0, false⟩
              else
                let recs := normalizePage pg.studies
                if pyTruthyStr pg.nextPageToken then
                  let rest := fetchPages remote (k + 1) t
                  ⟨recs ++ rest.recs, 1 + rest.requests, 1 + rest.delays,
                   rest.errored⟩
                else ⟨recs, 1, 0, false⟩
          from rfl]
      rw [hrk]
      simp [hempty]
    rw [htail] at hs
    simpa using hs

/-- A run whose first `k` pages are good and whose page `k` succeeds with
records but without a truthy continuation token stops after processing page
`k`: `k+1` requests, `k` delays, and page `k`'s rows are kept. -/
theorem fetchPages_no_token_stop (remote : Nat → Option PageResponse)
    (k m : Nat) (pg : PageResponse) (hkm : k < m)
    (hgood : ∀ i, i < k → goodPage (remote i) = true)
    (hrk : remote k = some pg) (hne : pg.studies.isEmpty = false)
    (htok : pyTruthyStr pg.nextPageToken = false) :
    fetchPages remote 0 m =
      ⟨pagesRecs remote 0 k ++ normalizePage pg.studies, k + 1, k, false⟩ := by
  have hs := fetchPages_shift remote k 0 m (Nat.le_of_lt hkm) (fun i hi => by simpa using hgood i hi)
  obtain ⟨t, ht⟩ : ∃ t, m - k = t + 1 := ⟨m - k - 1, by omega⟩
  have htail : fetchPages remote (0 + k) (m - k) =
      ⟨normalizePage pg.studies, 1, 0, false⟩ := by
    rw [show (0 : Nat) + k = k by omega, ht]
    rw [show fetchPages remote k (t + 1) =
          match remote k with
          | none => ⟨[], 1, 0, true⟩
          | some pg =>
            if pg.studies.isEmpty then ⟨[], 1, 0, false⟩
            else
              let recs := normalizePage pg.studies
              if pyTruthyStr pg.nextPageToken then
                let rest := fetchPages remote (k + 1) t
                ⟨recs ++ rest.recs, 1 + rest.requests, 1 + rest.delays,
                 rest.errored⟩
              else ⟨recs, 1, 0, false⟩
        from rfl]
    rw [hrk]
    simp [hne, htok]
  rw [htail] at hs
  simpa using hs

/-! ### Claim C4: a transport failure discards everything -/

/-- C4: for every run of `fetch_all_vaccine_trials` in which some issued page
request fails (the run's `errored` flag is set by the exception unwinding the
loop), the call returns `[]`: every record accumulated from pages already
fetched is discarded. No exception propagates — the embedded function is
total and the `except` branch is the returned value. -/
theorem fetch_all_error_discards_all (remote : Nat → Option PageResponse)
    (m : Nat) (h : (fetchPages remote 0 m).errored = true) :
    fetch_all_vaccine_trials remote m = [] := by
  simp [fetch_all_vaccine_trials, h]

/-- C4 witness: page 0 succeeds with one study and a token, page 1 raises; the
run is errored, had genuinely accumulated a row, and still returns `[]`. -/
theorem fetch_all_error_discards_all_witness :
    (fetchPages c4Remote 0 5).errored = true ∧
    (fetchPages c4Remote 0 5).recs ≠ [] ∧
    fetch_all_vaccine_trials c4Remote 5 = [] :=
  ⟨by decide, by decide, fetch_all_error_discards_all c4Remote 5 (by decide)⟩

/-! ### Claim C7: the detail fetcher returns a sentinel, never a fault -/

/-- C7: `fetch_trial_details_with_vaccines` is total over the transport
outcome: a failed request (any `requests.RequestException`, including the
`HTTPError` that `raise_for_status` turns a not-found response into) yields
the `none` sentinel, and a successful response yields the normalized detail
record; no exception reaches the caller. -/
theorem fetch_detail_total_sentinel (resp : Option RawStudy) :
    (resp = none → fetch_trial_details_with_vaccines resp = none) ∧
    (∀ raw, resp = some raw →
      fetch_trial_details_with_vaccines resp = some (normalizeDetail raw)) := by
  constructor
  · intro h; rw [h]; rfl
  · intro raw h; rw [h]; rfl

/-- C7 witness: the not-found outcome gives the sentinel, a success gives the
normalized record. -/
theorem fetch_detail_total_sentinel_witness :
    fetch_trial_details_with_vaccines none = none ∧
    fetch_trial_details_with_vaccines (some c7Raw) = some (normalizeDetail c7Raw) :=
  ⟨(fetch_detail_total_sentinel none).1 rfl,
   (fetch_detail_total_sentinel (some c7Raw)).2 c7Raw rfl⟩

/-! ### Claim C8: placeholder substitution in the normalizer -/

/-- C8: normalization is total (the embedding is a total function) and
substitutes placeholders: a missing `sponsorCollaboratorsModule` — or a
present one missing its `leadSponsor` — yields sponsor `"Unknown"`, and a
missing or empty `phases` list yields the phase list `["Not reported"]`
(joined into the row as `"Not reported"`). -/
theorem normalize_placeholders (s : RawStudy) :
    (sponsorModuleOf s = none → (normalizeSummary s).sponsor = "Unknown") ∧
    (∀ sm, sponsorModuleOf s = some sm → sm.leadSponsor = none →
      (normalizeSummary s).sponsor = "Unknown") ∧
    (phasesRawOf s = none ∨ phasesRawOf s = some [] →
      phasesOrDefault (phasesRawOf s) = ["Not reported"] ∧
      (normalizeSummary s).phase = "Not reported") := by
  refine ⟨fun h => ?_, fun sm h hl => ?_, fun h => ?_⟩
  · simp [normalizeSummary, sponsorModuleOf] at h ⊢
    rw [h]
    rfl
  · simp [normalizeSummary, sponsorModuleOf] at h ⊢
    rw [h]
    simp [hl, emptyLead]
  · have hp : phasesOrDefault (phasesRawOf s) = ["Not reported"] := by
      rcases h with h | h <;> rw [h] <;> rfl
    refine ⟨hp, ?_⟩
    simp only [normalizeSummary, phasesRawOf] at hp ⊢
    rw [hp]
    rfl

/-- C8 witness: a study whose protocol section has no sub-objects at all gets
both placeholders. -/
theorem normalize_placeholders_witness :
    (normalizeSummary c8Study).sponsor = "Unknown" ∧
    (normalizeSummary c8Study).phase = "Not reported" :=
  ⟨(normalize_placeholders c8Study).1 (by decide),
   ((normalize_placeholders c8Study).2.2 (Or.inl (by decide))).2⟩

/-! ### Claim C9: one row per raw study; no placeholder for the id -/

/-- C9: each processed page contributes exactly one row per raw study object
(none is dropped), and the id receives no placeholder: a study missing its
`identificationModule`, or carrying one without an `nctId`, yields a row whose
id is the null value — while title, status, and sponsor of a fully empty study
all fall back to their placeholders. -/
theorem normalize_one_row_per_study (studies : List RawStudy) (s : RawStudy) :
    (normalizePage studies).length = studies.length ∧
    (identOf s = none → (normalizeSummary s).nctId = none) ∧
    (∀ im, identOf s = some im → im.nctId = none →
      (normalizeSummary s).nctId = none) ∧
    ((normalizeSummary c9Study).nctId = none ∧
     (normalizeSummary c9Study).title = "No title" ∧
     (normalizeSummary c9Study).status = "Unknown" ∧
     (normalizeSummary c9Study).sponsor = "Unknown") := by
  refine ⟨List.length_map _ _, fun h => ?_, fun im h hn => ?_, by decide⟩
  · simp [normalizeSummary, identOf] at h ⊢
    rw [h]
    rfl
  · simp [normalizeSummary, identOf] at h ⊢
    rw [h]
    simp [hn]

/-- C9 witness: a study with a present identification module whose `nctId`
key is absent still yields a null id. -/
theorem normalize_one_row_per_study_witness :
    (normalizePage [c9Study, c9Study]).length = 2 ∧
    (normalizeSummary c9Study).nctId = none :=
  ⟨(normalize_one_row_per_study [c9Study, c9Study] c9Study).1,
   (normalize_one_row_per_study [] c9Study).2.1 (by decide)⟩

/-! ### Claim C10: skipped intervention names vs unconditional arm names -/

/-- C10: an intervention item whose `name` is missing or empty contributes
nothing to the product set, while per-arm intervention names are inserted
unconditionally after stripping — so an arm group listing a whitespace-only
name puts the empty string into the set. -/
theorem vaccine_name_skip_asymmetry (item : InterventionItem)
    (rest : List InterventionItem) (gs : List ArmGroup) :
    (item.name = none ∨ item.name = some "" →
      vaccinesOf ⟨item :: rest, gs⟩ = vaccinesOf ⟨rest, gs⟩) ∧
    "" ∈ vaccinesOf ⟨[], [⟨["   "]⟩]⟩ := by
  constructor
  · intro h
    rcases h with h | h <;>
      simp [vaccinesOf, vaccinesFromInterventions, h]
  · decide

/-- C10 witness: a null-named intervention item is dropped. -/
theorem vaccine_name_skip_asymmetry_witness :
    vaccinesOf ⟨[c10Item], []⟩ = vaccinesOf ⟨[], []⟩ ∧
    "" ∈ vaccinesOf ⟨[], [⟨["   "]⟩]⟩ :=
  ⟨(vaccine_name_skip_asymmetry c10Item [] []).1 (Or.inl rfl),
   (vaccine_name_skip_asymmetry c10Item [] []).2⟩

/-! ### Claim C5: own-trials matching (corrected) -/

/-- C5 counterexample: a hit whose only product name comes from an arm group.
Its full normalized product set contains the seed (so the claim, which merges
both sources, selects it), but `vaccine_results` — which consults the flat
`interventions` list only — rejects it. -/
theorem own_trials_armgroup_counterexample :
    specOwnMatch "Acme-Vax" c5Study = true ∧
    vaccine_results "Acme-Vax" [c5Study] = [] := by
  constructor <;> decide

/-- C5 amended: `own_trials` consists of exactly those hits whose set of
stripped flat-intervention names, lowercased and space-joined, contains the
lowercased seed as a substring; arm-group intervention names never influence
the match (replacing a study's arm groups leaves `vaccineMatch` unchanged). -/
theorem own_trials_membership (name : String) (studies : List RawStudy)
    (r : TrialRow) (s : RawStudy) (gs : List ArmGroup) :
    (r ∈ vaccine_results name studies ↔
      ∃ t ∈ studies, vaccineMatch name t = true ∧ mkVaccineRow t = r) ∧
    vaccineMatch name (setArmGroups s gs) = vaccineMatch name s := by
  constructor
  · simp only [vaccine_results, List.mem_map, List.mem_filter]
    constructor
    · rintro ⟨t, ⟨ht, hm⟩, hr⟩
      exact ⟨t, ht, hm, hr⟩
    · rintro ⟨t, ht, hm, hr⟩
      exact ⟨t, ⟨ht, hm⟩, hr⟩
  · simp [vaccineMatch, setArmGroups]

/-! ### Claim C6: summary/detail agreement (corrected) -/

/-- C6 counterexample: a raw object whose `overallStatus` key is present but
empty. The list normalizer applies `or "Unknown"` (empty is falsy) while the
detail normalizer applies `.get("overallStatus", "Unknown")` (the key is
present, so no default): the two records disagree on `status`. -/
theorem summary_detail_status_counterexample :
    (normalizeSummary c6Study).status = "Unknown" ∧
    (normalizeDetail c6Study).status = "" ∧
    (normalizeSummary c6Study).status ≠ (normalizeDetail c6Study).status := by
  refine ⟨by decide, by decide, by decide⟩

/-- C6 amended: for every raw trial object, the summary row and the detail
record agree on title, sponsor, and the joined phase string; they agree on
status whenever the raw `overallStatus` is absent or non-empty, the remaining
case being the counterexample above. (The detail record carries no id field of
its own — it is keyed by the id it was fetched with.) -/
theorem summary_detail_agreement (s : RawStudy) :
    (normalizeSummary s).title = (normalizeDetail s).title ∧
    (normalizeSummary s).sponsor = (normalizeDetail s).sponsor ∧
    (normalizeSummary s).phase = (normalizeDetail s).phase ∧
    (rawStatusOf s ≠ some "" →
      (normalizeSummary s).status = (normalizeDetail s).status) := by
  refine ⟨rfl, rfl, rfl, fun h => ?_⟩
  simp only [normalizeSummary, normalizeDetail, rawStatusOf] at h ⊢
  cases hst : ((s.protocolSection.getD emptyProto).statusModule.getD
      emptyStatus).overallStatus with
  | none => rfl
  | some v =>
    rw [hst] at h
    have hv : ¬v = "" := fun hv => h (by rw [hv])
    simp [pyOrStr, hv]

/-- C6 witness: a study with a non-empty status agrees on all four fields. -/
theorem summary_detail_agreement_witness :
    (normalizeSummary c6OkStudy).title = (normalizeDetail c6OkStudy).title ∧
    (normalizeSummary c6OkStudy).status = (normalizeDetail c6OkStudy).status :=
  ⟨(summary_detail_agreement c6OkStudy).1,
   (summary_detail_agreement c6OkStudy).2.2.2 (by decide)⟩

/-! ### Claim C3: termination of the pagination loop -/

/-- C3: the loop stops on (a) a zero-record page — immediately, even with a
continuation token present; (b) the page counter reaching `max_pages` — it
issues exactly `max_pages` requests when every page is non-empty and carries a
token; (c) a missing (or empty, hence falsy) continuation token — after
processing the current page, whose rows are kept. -/
theorem fetch_all_termination (remote : Nat → Option PageResponse)
    (m k : Nat) (pg : PageResponse) :
    ((∀ i, goodPage (remote i) = true) →
      (fetchPages remote 0 m).requests = m) ∧
    (k < m → (∀ i, i < k → goodPage (remote i) = true) →
      emptyPage (remote k) = true →
      (fetchPages remote 0 m).requests = k + 1 ∧
      (fetchPages remote 0 m).recs = pagesRecs remote 0 k) ∧
    (k < m → (∀ i, i < k → goodPage (remote i) = true) →
      remote k = some pg → pg.studies.isEmpty = false →
      pyTruthyStr pg.nextPageToken = false →
      (fetchPages remote 0 m).requests = k + 1 ∧
      (fetchPages remote 0 m).recs =
        pagesRecs remote 0 k ++ normalizePage pg.studies) := by
  refine ⟨fun h => ?_, fun hkm hg he => ?_, fun hkm hg hr hne ht => ?_⟩
  · rw [fetchPages_all_good remote m h]
  · rw [fetchPages_empty_stop remote k m hkm hg he]
    exact ⟨rfl, rfl⟩
  · rw [fetchPages_no_token_stop remote k m pg hkm hg hr hne ht]
    exact ⟨rfl, rfl⟩

/-- C3 witness: with tokens never running out the run issues exactly its page
budget of requests; a zero-record second page (token present) stops the run at
2 requests; a token-free second page stops at 2 requests with its rows kept. -/
theorem fetch_all_termination_witness :
    (fetchPages c3GoodRemote 0 7).requests = 7 ∧
    (fetchPages c3EmptyAt1Remote 0 7).requests = 2 ∧
    (fetchPages c3NoTokAt1Remote 0 7).requests = 2 :=
  ⟨(fetch_all_termination c3GoodRemote 7 0 ⟨[], none⟩).1 (fun _ => rfl),
   ((fetch_all_termination c3EmptyAt1Remote 7 1 ⟨[], none⟩).2.1 (by omega)
     (fun i hi => by interval_cases i; decide) (by decide)).1,
   ((fetch_all_termination c3NoTokAt1Remote 7 1 ⟨[c3Study], none⟩).2.2 (by omega)
     (fun i hi => by interval_cases i; decide) (by decide) (by decide)
     (by decide)).1⟩

/-! ### Claim C2: placement of the inter-request delay (corrected) -/

/-- C2 counterexample: with `max_pages = 1` and a non-empty first page carrying
a continuation token, the run issues a single page request yet performs one
delay — the `time.sleep` runs before the `while` test that then fails, so a
delay does occur after the final page, contradicting "only between pages
actually issued and never after the final page". -/
theorem fetch_all_delay_after_final_page :
    (fetchPages c2CexRemote 0 1).requests = 1 ∧
    (fetchPages c2CexRemote 0 1).delays = 1 := by
  constructor <;> decide

/-- C2 amended: the delay is performed after every page that returns records
and a continuation token. When the run ends by an empty page or a missing
token the delays therefore fall only between issued pages — in particular the
100/100/0 scenario issues 3 requests, performs exactly 2 delays and returns
200 records — but when the run is cut off by the `max_pages` cap with a token
still present, one delay also follows the final page (delays = requests =
`max_pages`). -/
theorem fetch_all_delay_schedule (remote : Nat → Option PageResponse)
    (m : Nat) (pg0 pg1 pg2 : PageResponse) :
    (2 < m → remote 0 = some pg0 → remote 1 = some pg1 → remote 2 = some pg2 →
      pg0.studies.length = 100 → pyTruthyStr pg0.nextPageToken = true →
      pg1.studies.length = 100 → pyTruthyStr pg1.nextPageToken = true →
      pg2.studies = [] →
      (fetchPages remote 0 m).requests = 3 ∧
      (fetchPages remote 0 m).delays = 2 ∧
      (fetch_all_vaccine_trials remote m).length = 200) ∧
    ((∀ i, goodPage (remote i) = true) →
      (fetchPages remote 0 m).delays = m ∧
      (fetchPages remote 0 m).requests = m) := by
  constructor
  · intro hm h0 h1 h2 hl0 ht0 hl1 ht1 he2
    have hne0 : pg0.studies.isEmpty = false := by
      cases hs : pg0.studies with
      | nil => rw [hs] at hl0; simp at hl0
      | cons a t => rfl
    have hne1 : pg1.studies.isEmpty = false := by
      cases hs : pg1.studies with
      | nil => rw [hs] at hl1; simp at hl1
      | cons a t => rfl
    have hgood : ∀ i, i < 2 → goodPage (remote i) = true := by
      intro i hi
      interval_cases i
      · rw [h0]; simp [goodPage, hne0, ht0]
      · rw [h1]; simp [goodPage, hne1, ht1]
    have hempty : emptyPage (remote 2) = true := by
      rw [h2]; simp [emptyPage, he2]
    have hrun := fetchPages_empty_stop remote 2 m hm hgood hempty
    refine ⟨by rw [hrun], by rw [hrun], ?_⟩
    rw [fetch_all_vaccine_trials, hrun]
    simp [pagesRecs, studiesOf, h0, h1, normalizePage, hl0, hl1]
  · intro h
    rw [fetchPages_all_good remote m h]
    exact ⟨rfl, rfl⟩

/-- C2 witness: the concrete 100/100/0 run returns 200 rows after 3 requests
and 2 delays; the concrete infinite-token run at `max_pages = 1` realizes the
cap case with delays = requests = 1. -/
theorem fetch_all_delay_schedule_witness :
    ((fetchPages c2ScenRemote 0 10).requests = 3 ∧
     (fetchPages c2ScenRemote 0 10).delays = 2 ∧
     (fetch_all_vaccine_trials c2ScenRemote 10).length = 200) ∧
    ((fetchPages c2CexRemote 0 1).delays = 1 ∧
     (fetchPages c2CexRemote 0 1).requests = 1) :=
  ⟨(fetch_all_delay_schedule c2ScenRemote 10
      ⟨List.replicate 100 c2Study, some "tok"⟩
      ⟨List.replicate 100 c2Study, some "tok"⟩
      ⟨[], some "tok"⟩).1 (by omega) rfl rfl rfl (by simp) rfl (by simp) rfl rfl,
   (fetch_all_delay_schedule c2CexRemote 1 ⟨[], none⟩ ⟨[], none⟩ ⟨[], none⟩).2
     (fun i => rfl)⟩

/-! ### Substring lemmas for the phase filter -/

theorem chSub_nil (hay : List Char) : chSub [] hay = true := by
  cases hay <;> simp [chSub, chStarts, List.isEmpty]

theorem chStarts_chSub (p l : List Char) (h : chStarts p l = true) :
    chSub p l = true := by
  cases l with
  | nil =>
    cases p with
    | nil => rfl
    | cons c cs => simp [chStarts] at h
  | cons d ds => simp [chSub, h]

theorem chSub_cons (p : List Char) (d : Char) (ds : List Char)
    (h : chSub p ds = true) : chSub p (d :: ds) = true := by
  simp [chSub, h]

theorem chSub_drop (p : List Char) (n : Nat) :
    ∀ l : List Char, chSub p (l.drop n) = true → chSub p l = true := by
  induction n with
  | zero => intro l h; simpa using h
  | succ n ih =>
    intro l h
    cases l with
    | nil => simpa using h
    | cons d ds =>
      simp only [List.drop_succ_cons] at h
      exact chSub_cons p d ds (ih ds h)

/-- Every piece of a character-level split occurs contiguously in the input,
and the first piece starts it. -/
theorem splitCharsAux_structure (sep : List Char) :
    ∀ (fuel : Nat) (cs : List Char),
    ∃ h t, splitCharsAux sep fuel cs = h :: t ∧ chStarts h cs = true ∧
      ∀ p ∈ t, chSub p cs = true := by
  intro fuel
  induction fuel with
  | zero =>
    intro cs
    exact ⟨[], [], rfl, by cases cs <;> rfl, by simp⟩
  | succ fuel ih =>
    intro cs
    cases cs with
    | nil => exact ⟨[], [], rfl, rfl, by simp⟩
    | cons c cs' =>
      by_cases hm : chStarts sep (c :: cs') = true
      · obtain ⟨h', t', heq, hst, hmem⟩ := ih (cs'.drop (sep.length - 1))
        refine ⟨[], splitCharsAux sep fuel (cs'.drop (sep.length - 1)),
          by simp [splitCharsAux, hm], rfl, ?_⟩
        intro p hp
        rw [heq] at hp
        rcases List.mem_cons.mp hp with rfl | hp
        · exact chSub_cons p c cs' (chSub_drop p _ cs' (chStarts_chSub _ _ hst))
        · exact chSub_cons p c cs' (chSub_drop p _ cs' (hmem p hp))
      · obtain ⟨h', t', heq, hst, hmem⟩ := ih cs'
        refine ⟨c :: h', t', by simp [splitCharsAux, hm, heq], ?_, ?_⟩
        · simp [chStarts, hst]
        · intro p hp
          exact chSub_cons p c cs' (hmem p hp)

theorem mem_splitCharsAux (sep : List Char) (fuel : Nat) (cs p : List Char)
    (hp : p ∈ splitCharsAux sep fuel cs) : chSub p cs = true := by
  obtain ⟨h, t, heq, hst, hmem⟩ := splitCharsAux_structure sep fuel cs
  rw [heq] at hp
  rcases List.mem_cons.mp hp with rfl | hp
  · exact chStarts_chSub _ _ hst
  · exact hmem p hp

/-- Every token of a Python-style split is a substring of the split string. -/
theorem mem_pySplit_pyInStr (sep s p : String) (hp : p ∈ pySplit sep s) :
    pyInStr p s = true := by
  simp only [pySplit, List.mem_map] at hp
  obtain ⟨q, hq, rfl⟩ := hp
  exact mem_splitCharsAux sep.toList _ s.toList q hq

/-! ### Claim C1: phase-filter semantics (corrected) -/

/-- C1 counterexample: the selected value `"PHASE"` is not equal to any token
of the record's split phase string `"PHASE1"`, yet the authored filter admits
the record, because Python `in` on the joined string is substring matching. -/
theorem phase_filter_substring_counterexample :
    phaseAdmits ["PHASE"] c1Row = true ∧
    phaseAdmitsSpec ["PHASE"] c1Row = false ∧
    df_filtered [c1Row] ["PHASE"] ["RECRUITING"] = [c1Row] :=
  ⟨by decide, by decide, by decide⟩

/-- C1 amended: the filter admits a record iff some selected phase value
occurs as a substring of the record's comma-joined phase string (and its
status is among the selected statuses) — substring semantics, which is
strictly more permissive than the claimed exact-token semantics: every exact
split-token match is admitted, but so are matches spanning token boundaries. -/
theorem phase_filter_admits_iff_substring (rows : List TrialRow)
    (sel sts : List String) (r : TrialRow) :
    (r ∈ df_filtered rows sel sts ↔
      r ∈ rows ∧ (∃ p ∈ sel, pyInStr p r.phase = true) ∧
        sts.contains r.status = true) ∧
    (phaseAdmitsSpec sel r = true → phaseAdmits sel r = true) := by
  constructor
  · simp only [df_filtered, List.mem_filter, phaseAdmits, List.any_eq_true]
    constructor
    · rintro ⟨⟨hr, p, hp, hin⟩, hst⟩
      exact ⟨hr, ⟨p, hp, hin⟩, hst⟩
    · rintro ⟨hr, ⟨p, hp, hin⟩, hst⟩
      exact ⟨⟨hr, p, hp, hin⟩, hst⟩
  · intro h
    simp only [phaseAdmitsSpec, List.any_eq_true] at h
    obtain ⟨p, hp, hc⟩ := h
    simp only [phaseAdmits, List.any_eq_true]
    exact ⟨p, hp, mem_pySplit_pyInStr _ _ _ (by simpa using hc)⟩

/-- C1 witness: an exact token match (`"PHASE1"` against phase `"PHASE1"`) is
admitted by the filter. -/
theorem phase_filter_admits_iff_substring_witness :
    phaseAdmits ["PHASE1"] c1Row = true :=
  (phase_filter_admits_iff_substring [c1Row] ["PHASE1"] ["RECRUITING"] c1Row).2
    (by decide)

end VaccinePipeline
